import Mathlib

/-!
Verification of the penrose keybinding compiler core.

Source files embedded here:
- crates/penrose_proc/src/lib.rs : the compile-time path
  (as_bindings, expand_templates, has_valid_modifiers, is_valid_keyname,
  report_error, validate_user_bindings)
- src/helpers.rs : the runtime path (parse_key_binding)

Rust strings are modelled as lists of characters (Str), so that the
behaviour of str::split on a separator character is given by a
transparent recursive definition (splitDash) matching the Rust
semantics, including empty segments and the singleton result for the
empty string. Rust panics (panic!, die!) are modelled as Except.error
carrying the formatted panic message; fallible lookups return Option.
Machine integers: the xcb modifier masks are u32 values (MOD_MASK_1 = 8,
MOD_MASK_4 = 64, MOD_MASK_SHIFT = 1, MOD_MASK_CONTROL = 4) modelled as
Nat; the narrowing cast mask as u16 is modelled as reduction mod 2 ^ 16.
-/

/-- Rust str modelled as a list of characters. -/
abbrev Str := List Char

/-- Character data of a Lean string literal, used to write Str constants. -/
def str (s : String) : Str := s.data

/-- Model of the Rust iterator s.split(sep) for sep = the dash character:
returns the list of dash-free segments; the empty input gives one empty
segment, and consecutive dashes give empty segments, as in Rust. -/
def splitDash : List Char → List Str
  | [] => [[]]
  | c :: cs =>
    match splitDash cs with
    | [] => [[]]
    | p :: ps => if c = '-' then [] :: p :: ps else (c :: p) :: ps

/-- Model of Vec join / intercalate with the dash separator. -/
def joinDash : List Str → Str
  | [] => []
  | [p] => p
  | p :: q :: ps => p ++ '-' :: joinDash (q :: ps)

/-- Binding struct of crates/penrose_proc/src/lib.rs: raw string, ordered
modifier tokens, optional trailing key name. -/
structure Binding where
  raw : Str
  mods : List Str
  keyname : Option Str
  deriving DecidableEq, Repr

/-- VALID_MODIFIERS constant of crates/penrose_proc/src/lib.rs. -/
def VALID_MODIFIERS : List Str := [str "A", str "M", str "S", str "C"]

/-- Body of the closure in as_bindings (crates/penrose_proc/src/lib.rs,
lines 52-72): split the raw string on the dash; with at most one segment
the whole string becomes a lone modifier and there is no key name,
otherwise the popped last segment is the key name and the remaining
segments are the modifiers. -/
def asBinding (s : Str) : Binding :=
  let parts := splitDash s
  if parts.length ≤ 1 then
    { raw := s, mods := [s], keyname := none }
  else
    { raw := s, mods := parts.dropLast, keyname := parts.getLast? }

/-- as_bindings (crates/penrose_proc/src/lib.rs): map the parser over the
raw strings. -/
def asBindings (raw : List Str) : List Binding := raw.map asBinding

/-- The literal placeholder segment ending a well-formed template. -/
def placeholder : Str := str "\x7b\x7d"

/-- Panic message of expand_templates for a malformed template. -/
def templateErr (t : Str) : Str :=
  str "\x27" ++ t ++ str "\x27 is an invalid template: expected \x27<Modifiers>-\x7b\x7d\x27"

/-- The Binding built by the inner map of expand_templates
(crates/penrose_proc/src/lib.rs, lines 87-91) for one template and one
key name: raw is the remaining template segments joined with the dash
and suffixed with the dash and the key name, the modifiers are those
segments, and the key name is the given one. -/
def expandedBinding (t k : Str) : Binding :=
  { raw := joinDash (splitDash t).dropLast ++ '-' :: k
    mods := (splitDash t).dropLast
    keyname := some k }

/-- One iteration of the outer flat_map in expand_templates
(crates/penrose_proc/src/lib.rs, lines 74-95): pop the last segment of
the template, panic unless it is the placeholder, then produce one
Binding per key name. -/
def expandTemplate (t : Str) (keynames : List Str) : Except Str (List Binding) :=
  if (splitDash t).getLast? = some placeholder then
    .ok (keynames.map (expandedBinding t))
  else
    .error (templateErr t)

/-- expand_templates (crates/penrose_proc/src/lib.rs): the flat_map over
the templates, template order outer and key-name order inner; the first
malformed template panics and no bindings are produced. -/
def expandTemplates : List Str → List Str → Except Str (List Binding)
  | [], _ => .ok []
  | t :: ts, ks =>
    match expandTemplate t ks with
    | .error e => .error e
    | .ok bs =>
      match expandTemplates ts ks with
      | .error e => .error e
      | .ok rest => .ok (bs ++ rest)

/-- has_valid_modifiers (crates/penrose_proc/src/lib.rs, lines 111-117). -/
def hasValidModifiers (b : Binding) : Bool :=
  !b.mods.isEmpty && b.mods.all fun m => VALID_MODIFIERS.contains m

/-- is_valid_keyname (crates/penrose_proc/src/lib.rs, lines 119-125). -/
def isValidKeyname (b : Binding) (names : List Str) : Bool :=
  match b.keyname with
  | some k => names.contains k
  | none => false

/-- Panic message of the duplicate check in validate_user_bindings. -/
def dupMsg (raw : Str) : Str :=
  str "\x27" ++ raw ++ str "\x27 is bound as a keybinding more than once"

/-- report_error (crates/penrose_proc/src/lib.rs, lines 127-134): panic
message combining the offending raw string, the detail message and the
expected-format hint. -/
def reportError (msg : Str) (b : Binding) : Str :=
  str "\x27" ++ b.raw ++ str "\x27 is an invalid key binding: " ++ msg ++
    str "\nKey bindings should be of the form <modifiers>-<key name> e.g:  M-j, M-S-slash, M-C-Up"

/-- Detail message for a binding with no trailing key name. -/
def noKeyNameMsg : Str := str "no key name specified"

/-- Detail message for an unknown key name. -/
def unknownKeyMsg (k : Str) : Str :=
  str "\x27" ++ k ++ str "\x27 is not a known key: run \x27xmodmap -pke\x27 to see valid key names"

/-- Detail message for an invalid modifier set; the Rust Debug rendering
of VALID_MODIFIERS is spelled out. -/
def invalidModsMsg (b : Binding) : Str :=
  str "\x27" ++ joinDash b.mods ++
    str "\x27 is an invalid modifer set: valid modifiers are [\"A\", \"M\", \"S\", \"C\"]"

/-- The validation loop of validate_user_bindings
(crates/penrose_proc/src/lib.rs, lines 151-192): for each binding in
input order, panic on a raw string already seen, then on a missing key
name, then on a key name outside the table, then on an invalid modifier
set; otherwise record the raw string and continue. A panic is modelled
as Except.error carrying the panic message, so the first violation ends
the run. -/
def validateBindings : List Binding → List Str → List Str → Except Str Unit
  | [], _, _ => .ok ()
  | b :: bs, names, seen =>
    if seen.contains b.raw then
      .error (dupMsg b.raw)
    else if b.keyname.isNone then
      .error (reportError noKeyNameMsg b)
    else if !(isValidKeyname b names) then
      .error (reportError (unknownKeyMsg (b.keyname.getD [])) b)
    else if !(hasValidModifiers b) then
      .error (reportError (invalidModsMsg b) b)
    else
      validateBindings bs names (b.raw :: seen)

/-- validate_user_bindings on an already-parsed collection of bindings
and a key-name table: run the loop with an empty seen set. -/
def validateUserBindings (bs : List Binding) (names : List Str) : Except Str Unit :=
  validateBindings bs names []

/-- KeyCode struct (mask: u16, code: u8) modelled over Nat. -/
structure KeyCode where
  mask : Nat
  code : Nat
  deriving DecidableEq, Repr

/-- CodeMap lookup: the HashMap get of src/helpers.rs modelled over an
association list with unique keys (first match wins). -/
def lookupCode : List (Str × Nat) → Str → Option Nat
  | [], _ => none
  | (k, v) :: rest, key => if k = key then some v else lookupCode rest key

/-- The key-name extraction of parse_key_binding (src/helpers.rs, line
83): parts.remove(parts.len() - 1) takes the last split segment; the
split result is never empty so the none branch is unreachable. -/
def runtimeKeyName (s : Str) : Str :=
  match (splitDash s).getLast? with
  | some k => k
  | none => []

/-- The modifier segments remaining in parse_key_binding after the last
segment is removed (src/helpers.rs, lines 82-85). -/
def runtimeMods (s : Str) : List Str := (splitDash s).dropLast

/-- The match on a single modifier token in parse_key_binding
(src/helpers.rs, lines 87-93): the four xcb mask constants, with die!
on any other token modelled as Except.error. -/
def modValue : Str → Except Str Nat
  | ['A'] => .ok 8
  | ['M'] => .ok 64
  | ['S'] => .ok 1
  | ['C'] => .ok 4
  | s => .error (str "invalid key binding prefix: " ++ s)

/-- The map-then-fold of parse_key_binding (src/helpers.rs, lines 85-94):
left fold of bitwise OR over the mapped modifier values, dying at the
first unrecognised token. -/
def modMaskAux : List Str → Nat → Except Str Nat
  | [], acc => .ok acc
  | m :: ms, acc =>
    match modValue m with
    | .error e => .error e
    | .ok v => modMaskAux ms (acc ||| v)

/-- The full modifier mask accumulated from 0. -/
def modMask (ms : List Str) : Except Str Nat := modMaskAux ms 0

/-- parse_key_binding (src/helpers.rs, lines 77-104): split the pattern,
look up the last segment in the table; on a miss return None, otherwise
fold the modifier mask (die! on an unknown token) and return the mask
narrowed to u16 paired with the table code. -/
def parseKeyBinding (pattern : Str) (knownCodes : List (Str × Nat)) :
    Except Str (Option KeyCode) :=
  match lookupCode knownCodes (runtimeKeyName pattern) with
  | none => .ok none
  | some code =>
    match modMask (runtimeMods pattern) with
    | .error e => .error e
    | .ok mask => .ok (some { mask := mask % 2 ^ 16, code := code })

/-! ### Helper lemmas about splitting and joining -/

theorem splitDash_ne_nil (cs : List Char) : splitDash cs ≠ [] := by
  cases cs with
  | nil => simp [splitDash]
  | cons c cs =>
    unfold splitDash
    cases splitDash cs with
    | nil => simp
    | cons p ps =>
      by_cases h : c = '-' <;> simp [h]

theorem joinDash_splitDash (cs : List Char) : joinDash (splitDash cs) = cs := by
  induction cs with
  | nil => rfl
  | cons c cs ih =>
    unfold splitDash
    cases hs : splitDash cs with
    | nil => exact absurd hs (splitDash_ne_nil cs)
    | cons p ps =>
      rw [hs] at ih
      by_cases hc : c = '-'
      · subst hc
        simp only [if_pos rfl]
        cases ps with
        | nil => simpa [joinDash] using ih
        | cons q qs => simpa [joinDash] using ih
      · simp only [if_neg hc]
        cases ps with
        | nil => simpa [joinDash] using congrArg (c :: ·) ih
        | cons q qs =>
          simp only [joinDash] at ih ⊢
          simpa using congrArg (c :: ·) ih

theorem dropLast_append_getLast_of {α : Type} (l : List α) (k : α)
    (h : l.getLast? = some k) : l.dropLast ++ [k] = l := by
  induction l with
  | nil => simp at h
  | cons a t ih =>
    cases t with
    | nil =>
      simp [List.getLast?] at h
      subst h
      rfl
    | cons b t' =>
      rw [List.getLast?_cons_cons] at h
      have := ih h
      simpa [List.dropLast] using congrArg (a :: ·) this

/-! ### Helper lemmas about the runtime modifier mask -/

theorem modValue_ok_of_mem {m : Str} (h : m ∈ VALID_MODIFIERS) :
    ∃ v, modValue m = .ok v ∧ v ∈ [8, 64, 1, 4] := by
  simp only [VALID_MODIFIERS, List.mem_cons, List.not_mem_nil, or_false] at h
  rcases h with h | h | h | h <;> subst h <;> exact ⟨_, rfl, by decide⟩

theorem mem_of_modValue_ok {m : Str} {v : Nat} (h : modValue m = .ok v) :
    m ∈ VALID_MODIFIERS := by
  unfold modValue at h
  split at h <;> first | decide | simp at h

theorem modMaskAux_error_of_bad (ms : List Str)
    (hbad : ∃ m ∈ ms, m ∉ VALID_MODIFIERS) :
    ∀ acc, ∃ e, modMaskAux ms acc = .error e := by
  induction ms with
  | nil => simp at hbad
  | cons m' ms ih =>
    intro acc
    obtain ⟨m, hm, hnot⟩ := hbad
    cases h : modValue m' with
    | error e => exact ⟨e, by simp [modMaskAux, h]⟩
    | ok v =>
      have hm' : m' ∈ VALID_MODIFIERS := mem_of_modValue_ok h
      have hms : m ∈ ms := by
        rcases List.mem_cons.mp hm with rfl | h2
        · exact absurd hm' hnot
        · exact h2
      obtain ⟨e, he⟩ := ih ⟨m, hms, hnot⟩ (acc ||| v)
      exact ⟨e, by simp [modMaskAux, h, he]⟩

theorem modMaskAux_perm {l₁ l₂ : List Str} (hp : l₁.Perm l₂) :
    (∀ m ∈ l₁, m ∈ VALID_MODIFIERS) → ∀ acc, modMaskAux l₁ acc = modMaskAux l₂ acc := by
  induction hp with
  | nil => intro _ _; rfl
  | cons x hp ih =>
    intro hv acc
    obtain ⟨v, hx, _⟩ := modValue_ok_of_mem (hv x (by simp))
    simp only [modMaskAux, hx]
    exact ih (fun m hm => hv m (by simp [hm])) (acc ||| v)
  | swap x y l =>
    intro hv acc
    obtain ⟨vx, hx, _⟩ := modValue_ok_of_mem (hv x (by simp))
    obtain ⟨vy, hy, _⟩ := modValue_ok_of_mem (hv y (by simp))
    simp only [modMaskAux, hx, hy]
    rw [Nat.or_assoc, Nat.or_assoc, Nat.or_comm vy vx]
  | trans hp₁ hp₂ ih₁ ih₂ =>
    intro hv acc
    rw [ih₁ hv acc, ih₂ (fun m hm => hv m ((hp₁.mem_iff).mpr hm)) acc]

/-- The sixteen masks reachable by OR-combining the four fixed modifier
mask values. -/
def maskSet : List Nat := [0, 1, 4, 5, 8, 9, 12, 13, 64, 65, 68, 69, 72, 73, 76, 77]

theorem maskSet_closed : ∀ a ∈ maskSet, ∀ v ∈ [8, 64, 1, 4], (a ||| v) ∈ maskSet := by
  decide

theorem maskSet_le : ∀ n ∈ maskSet, n ≤ (8 ||| 64 ||| 1 ||| 4) ∧ n % 2 ^ 16 = n := by
  decide

theorem modMaskAux_maskSet (ms : List Str)
    (hv : ∀ m ∈ ms, m ∈ VALID_MODIFIERS) :
    ∀ acc ∈ maskSet, ∃ n, modMaskAux ms acc = .ok n ∧ n ∈ maskSet := by
  induction ms with
  | nil => intro acc hacc; exact ⟨acc, rfl, hacc⟩
  | cons m ms ih =>
    intro acc hacc
    obtain ⟨v, hveq, hvmem⟩ := modValue_ok_of_mem (hv m (by simp))
    obtain ⟨n, hn, hnmem⟩ :=
      ih (fun x hx => hv x (by simp [hx])) (acc ||| v) (maskSet_closed acc hacc v hvmem)
    exact ⟨n, by simp [modMaskAux, hveq, hn], hnmem⟩

/-! ### Claims -/

/-- C1, amended: compile-time validation does not accumulate error
messages; it halts at the first violation. Whatever bindings follow the
first violating one, the run surfaces exactly the first panic message,
here the duplicate message for the repeated raw string M-j. -/
theorem C1_validation_halts_at_first_error (rest : List Binding) :
    validateUserBindings (asBindings [str "M-j", str "M-j"] ++ rest) [str "j", str "k"] =
      .error (dupMsg (str "M-j")) := rfl

/-- C1 counterexample to the claim as stated: the set M-j, M-j, X-k has
two violations, a duplicate raw string and an invalid modifier set, yet
the whole validation surfaces only the duplicate message; the invalid
modifier message, which validating X-k alone does produce, is never
surfaced with it. So not every binding is checked and messages are not
accumulated. -/
theorem C1_accumulation_counterexample :
    validateUserBindings (asBindings [str "M-j", str "M-j", str "X-k"]) [str "j", str "k"] =
      .error (dupMsg (str "M-j")) ∧
    hasValidModifiers (asBinding (str "X-k")) = false ∧
    validateUserBindings (asBindings [str "X-k"]) [str "j", str "k"] =
      .error (reportError (invalidModsMsg (asBinding (str "X-k"))) (asBinding (str "X-k"))) ∧
    dupMsg (str "M-j") ≠
      reportError (invalidModsMsg (asBinding (str "X-k"))) (asBinding (str "X-k")) :=
  ⟨rfl, rfl, rfl, by decide⟩

/-- C2, amended: the compile-time Binding Token Parser and the Runtime
Resolver split identically on every input with more than one dash
segment: the last segment is the key name and the preceding segments
are the modifiers. They disagree on single-segment inputs, where the
compile-time parser yields no key name but the resolver treats the
whole string as the key name (see the counterexample). -/
theorem C2_paths_agree_on_multisegment (s : Str) (h : 1 < (splitDash s).length) :
    (asBinding s).mods = runtimeMods s ∧
    (asBinding s).keyname = some (runtimeKeyName s) := by
  have hnle : ¬ (splitDash s).length ≤ 1 := by omega
  cases hg : (splitDash s).getLast? with
  | none =>
    have he : splitDash s = [] := List.getLast?_eq_none_iff.mp hg
    rw [he] at h
    simp at h
  | some k =>
    constructor
    · simp [asBinding, hnle, runtimeMods]
    · simp [asBinding, hnle, runtimeKeyName, hg]

/-- C2 witness: the two splitting paths agree on the two-segment
pattern M-j. -/
theorem C2_paths_agree_witness :
    (asBinding (str "M-j")).mods = runtimeMods (str "M-j") ∧
    (asBinding (str "M-j")).keyname = some (runtimeKeyName (str "M-j")) :=
  C2_paths_agree_on_multisegment (str "M-j") (by decide)

/-- C2 counterexample to the claim as stated: on the single-segment
string j the compile-time parser produces no key name, while the
runtime resolver takes j itself as the key name and resolves it against
a table containing j, so the two paths do not agree on which strings
have a key name. -/
theorem C2_single_segment_counterexample :
    (asBinding (str "j")).keyname = none ∧
    runtimeKeyName (str "j") = str "j" ∧
    parseKeyBinding (str "j") [(str "j", 44)] = .ok (some { mask := 0, code := 44 }) :=
  ⟨rfl, rfl, rfl⟩

/-- C3, amended: at runtime resolution a modifier token outside the
fixed vocabulary A, M, S, C is fatal whenever the key name is present
in the table: parse_key_binding dies instead of returning a result. An
empty parsed modifier list, by contrast, is not fatal (see the
counterexample): it yields mask 0. -/
theorem C3_unknown_modifier_fatal (p : Str) (table : List (Str × Nat)) (c : Nat)
    (hc : lookupCode table (runtimeKeyName p) = some c)
    (hbad : ∃ m ∈ runtimeMods p, m ∉ VALID_MODIFIERS) :
    ∃ e, parseKeyBinding p table = .error e := by
  obtain ⟨e, he⟩ := modMaskAux_error_of_bad (runtimeMods p) hbad 0
  exact ⟨e, by simp [parseKeyBinding, hc, modMask, he]⟩

/-- C3 witness: resolving X-j against a table containing j is fatal. -/
theorem C3_unknown_modifier_fatal_witness :
    ∃ e, parseKeyBinding (str "X-j") [(str "j", 44)] = .error e :=
  C3_unknown_modifier_fatal (str "X-j") [(str "j", 44)] 44 (by decide)
    ⟨str "X", by decide, by decide⟩

/-- C3 counterexample to the claim as stated: the single-segment
pattern j parses to an empty modifier list, and with j present in the
table resolution returns a result with mask 0 instead of halting with a
fatal error. -/
theorem C3_empty_modifiers_counterexample :
    runtimeMods (str "j") = [] ∧
    parseKeyBinding (str "j") [(str "j", 44)] = .ok (some { mask := 0, code := 44 }) :=
  ⟨rfl, rfl⟩

/-- C4: whenever the trailing key name of the pattern is absent from
the table, the runtime resolver returns the explicit not-found result
(ok none), never a fatal error, whatever the modifiers are. -/
theorem C4_missing_key_returns_none (p : Str) (table : List (Str × Nat))
    (h : lookupCode table (runtimeKeyName p) = none) :
    parseKeyBinding p table = .ok none := by
  simp [parseKeyBinding, h]

/-- C4 witness: resolving M-nonexistent against a table lacking the key
nonexistent returns the not-found result. -/
theorem C4_missing_key_returns_none_witness :
    parseKeyBinding (str "M-nonexistent") [(str "j", 44)] = .ok none :=
  C4_missing_key_returns_none (str "M-nonexistent") [(str "j", 44)] (by decide)

/-- C5: the resolver maps A to 8 (Alt, MOD_MASK_1), M to 64 (Super,
MOD_MASK_4), S to 1 (Shift) and C to 4 (Control) and combines them with
bitwise OR, so on valid modifier lists the mask is invariant under
permutation and under duplicated tokens, and resolving M-j against a
table with j mapped to 44 gives mask 64 and code 44. -/
theorem C5_modifier_mask_or :
    (modValue (str "A") = .ok 8 ∧ modValue (str "M") = .ok 64 ∧
     modValue (str "S") = .ok 1 ∧ modValue (str "C") = .ok 4) ∧
    (∀ l₁ l₂ : List Str, l₁.Perm l₂ → (∀ m ∈ l₁, m ∈ VALID_MODIFIERS) →
       modMask l₁ = modMask l₂) ∧
    (∀ (m : Str) (ms : List Str), modMask (m :: m :: ms) = modMask (m :: ms)) ∧
    parseKeyBinding (str "M-j") [(str "j", 44)] = .ok (some { mask := 64, code := 44 }) := by
  refine ⟨⟨rfl, rfl, rfl, rfl⟩, ?_, ?_, rfl⟩
  · intro l₁ l₂ hp hv
    exact modMaskAux_perm hp hv 0
  · intro m ms
    cases h : modValue m with
    | error e => simp [modMask, modMaskAux, h]
    | ok v => simp [modMask, modMaskAux, h, Nat.or_assoc, Nat.or_self]

/-- C5 witness: the mask of the list M, S equals the mask of the
permuted list S, M. -/
theorem C5_modifier_mask_or_witness :
    modMask [str "M", str "S"] = modMask [str "S", str "M"] :=
  C5_modifier_mask_or.2.1 [str "M", str "S"] [str "S", str "M"]
    (List.Perm.swap (str "S") (str "M") []) (by decide)

/-- C6: the Binding Token Parser is a pure function of the raw string:
with more than one dash segment the last segment is the key name and
the preceding segments are the modifiers in original order; with
exactly one segment (the split is never empty) the whole string is a
lone modifier and the key name is absent, with no repair. -/
theorem C6_binding_token_split (s : Str) :
    asBinding s =
      if 1 < (splitDash s).length then
        { raw := s, mods := (splitDash s).dropLast, keyname := (splitDash s).getLast? }
      else
        { raw := s, mods := [s], keyname := none } := by
  by_cases h : (splitDash s).length ≤ 1
  · rw [if_neg (by omega)]
    simp [asBinding, h]
  · rw [if_pos (by omega)]
    simp [asBinding, h]

/-- C7: over well-formed templates, expansion succeeds and returns the
full cross-product in template-outer, key-name-inner order: one Binding
per template and key name, whose raw string is the template modifier
segments joined with dashes and suffixed with a dash and the key name,
whose modifiers are those segments and whose key name is that key name;
T templates by K key names yield exactly T times K bindings. -/
theorem C7_template_cross_product (ts ks : List Str)
    (h : ∀ t ∈ ts, (splitDash t).getLast? = some placeholder) :
    expandTemplates ts ks = .ok (ts.flatMap fun t => ks.map (expandedBinding t)) ∧
    (ts.flatMap fun t => ks.map (expandedBinding t)).length = ts.length * ks.length := by
  induction ts with
  | nil => exact ⟨rfl, by simp⟩
  | cons t ts ih =>
    have ht := h t (by simp)
    obtain ⟨h1, h2⟩ := ih fun t' ht' => h t' (by simp [ht'])
    constructor
    · simp [expandTemplates, expandTemplate, ht, h1, List.flatMap_cons]
    · simp only [List.flatMap_cons, List.length_append, List.length_map, h2,
        List.length_cons, Nat.succ_mul]
      exact Nat.add_comm _ _

/-- C7 witness: one template crossed with two key names expands to the
stated cross-product of length two. -/
theorem C7_template_cross_product_witness :
    expandTemplates [str "M-\x7b\x7d"] [str "1", str "2"] =
      .ok ([str "M-\x7b\x7d"].flatMap fun t => [str "1", str "2"].map (expandedBinding t)) ∧
    ([str "M-\x7b\x7d"].flatMap fun t => [str "1", str "2"].map (expandedBinding t)).length =
      [str "M-\x7b\x7d"].length * [str "1", str "2"].length :=
  C7_template_cross_product [str "M-\x7b\x7d"] [str "1", str "2"] (by decide)

/-- C8: if any template in the list does not end in the placeholder
segment, the whole expansion aborts with an error and produces no
bindings at all; the error is the value of the run, not collected next
to partial output. -/
theorem C8_malformed_template_aborts (ts ks : List Str) (t : Str) (hmem : t ∈ ts)
    (hbad : (splitDash t).getLast? ≠ some placeholder) :
    ∃ e, expandTemplates ts ks = .error e := by
  induction ts with
  | nil => simp at hmem
  | cons t' ts ih =>
    rcases List.mem_cons.mp hmem with rfl | h2
    · exact ⟨templateErr t, by simp [expandTemplates, expandTemplate, hbad]⟩
    · cases he : expandTemplate t' ks with
      | error e => exact ⟨e, by simp [expandTemplates, he]⟩
      | ok bs =>
        obtain ⟨e, hrec⟩ := ih h2
        exact ⟨e, by simp [expandTemplates, he, hrec]⟩

/-- C8 witness: the template M-x, whose final segment is not the
placeholder, aborts expansion. -/
theorem C8_malformed_template_aborts_witness :
    ∃ e, expandTemplates [str "M-x"] [str "1"] = .error e :=
  C8_malformed_template_aborts [str "M-x"] [str "1"] (str "M-x") (by decide) (by decide)

/-- C9: for every binding string with at least one dash separator, so
in particular for every valid binding string of the modifier-list plus
key-name form, parsing and then re-joining the modifiers and the key
name with dashes reconstructs the original string exactly. -/
theorem C9_parse_join_roundtrip (s : Str) (h : 1 < (splitDash s).length) :
    ∃ k, (asBinding s).keyname = some k ∧
      joinDash ((asBinding s).mods ++ [k]) = s := by
  have hnle : ¬ (splitDash s).length ≤ 1 := by omega
  cases hg : (splitDash s).getLast? with
  | none =>
    have he : splitDash s = [] := List.getLast?_eq_none_iff.mp hg
    rw [he] at h
    simp at h
  | some k =>
    refine ⟨k, by simp [asBinding, hnle, hg], ?_⟩
    have hd : (splitDash s).dropLast ++ [k] = splitDash s :=
      dropLast_append_getLast_of _ _ hg
    calc joinDash ((asBinding s).mods ++ [k])
        = joinDash ((splitDash s).dropLast ++ [k]) := by simp [asBinding, hnle]
      _ = joinDash (splitDash s) := by rw [hd]
      _ = s := joinDash_splitDash s

/-- C9 witness: the round trip on M-S-j. -/
theorem C9_parse_join_roundtrip_witness :
    ∃ k, (asBinding (str "M-S-j")).keyname = some k ∧
      joinDash ((asBinding (str "M-S-j")).mods ++ [k]) = str "M-S-j" :=
  C9_parse_join_roundtrip (str "M-S-j") (by decide)

/-- C10: when every parsed modifier token lies in the vocabulary, the
accumulated mask is at most the OR of the four fixed mask bits, hence
below 2 to the 16, so the narrowing of the mask to the 16-bit field of
the resolved KeyCode is the identity and the resolver returns exactly
the accumulated mask with the table code. -/
theorem C10_mask_cast_lossless (p : Str) (table : List (Str × Nat)) (c : Nat)
    (hc : lookupCode table (runtimeKeyName p) = some c)
    (hv : ∀ m ∈ runtimeMods p, m ∈ VALID_MODIFIERS) :
    ∃ n, modMask (runtimeMods p) = .ok n ∧ n ≤ (8 ||| 64 ||| 1 ||| 4) ∧
      n % 2 ^ 16 = n ∧ parseKeyBinding p table = .ok (some { mask := n, code := c }) := by
  obtain ⟨n, hn, hmem⟩ := modMaskAux_maskSet (runtimeMods p) hv 0 (by decide)
  obtain ⟨hle, hmod⟩ := maskSet_le n hmem
  refine ⟨n, hn, hle, hmod, ?_⟩
  have hres : parseKeyBinding p table = .ok (some { mask := n % 2 ^ 16, code := c }) := by
    simp [parseKeyBinding, hc, modMask, hn]
  rw [hmod] at hres
  exact hres

/-- C10 witness: resolving M-S-j against a table with j mapped to 44
stores the unreduced mask 65. -/
theorem C10_mask_cast_lossless_witness :
    ∃ n, modMask (runtimeMods (str "M-S-j")) = .ok n ∧ n ≤ (8 ||| 64 ||| 1 ||| 4) ∧
      n % 2 ^ 16 = n ∧
      parseKeyBinding (str "M-S-j") [(str "j", 44)] = .ok (some { mask := n, code := 44 }) :=
  C10_mask_cast_lossless (str "M-S-j") [(str "j", 44)] 44 (by decide) (by decide)
